import Mathlib

/-!
Verification of the HydraVPN core against its specification.

The Go sources are shallowly embedded: byte strings are `List Nat` whose
entries are below 256, machine integers are `Nat` with explicit `% 2 ^ w`
where the Go code truncates, fallible operations return `Option`, and the
external AEAD cipher (XChaCha20-Poly1305, from a library outside the
repository) is passed in as an oracle function.
-/

namespace HydraVPN

/-- A byte string: every entry fits in one byte. -/
def isBytes (l : List Nat) : Prop := ∀ x ∈ l, x < 256

instance (l : List Nat) : Decidable (isBytes l) := by
  unfold isBytes; infer_instance

/-! ## Framing (src/pkg/protocol/protocol.go) -/

/-- `binary.BigEndian.PutUint64`: eight big-endian bytes of `n` (a `uint64`). -/
def be64 (n : Nat) : List Nat :=
  [n / 72057594037927936 % 256, n / 281474976710656 % 256, n / 1099511627776 % 256, n / 4294967296 % 256,
   n / 16777216 % 256, n / 65536 % 256, n / 256 % 256, n % 256]

/-- `binary.BigEndian.PutUint16`: two big-endian bytes of `n` (a `uint16`). -/
def be16 (n : Nat) : List Nat := [n / 256 % 256, n % 256]

/-- `binary.BigEndian.Uint64` read at offset 4 of a packet buffer. -/
def readU64at4 (b : List Nat) : Nat :=
  b.getD 4 0 * 72057594037927936 + b.getD 5 0 * 281474976710656 + b.getD 6 0 * 1099511627776 +
  b.getD 7 0 * 4294967296 + b.getD 8 0 * 16777216 + b.getD 9 0 * 65536 +
  b.getD 10 0 * 256 + b.getD 11 0

/-- `binary.BigEndian.Uint16` read at offset 12 of a packet buffer. -/
def readU16at12 (b : List Nat) : Nat := b.getD 12 0 * 256 + b.getD 13 0

/-- `PacketHeader`: magic(2) + version(1) + type(1) + session_id(8) + length(2). -/
structure PacketHeader where
  magic0 : Nat
  magic1 : Nat
  version : Nat
  ptype : Nat
  sessionID : Nat
  length : Nat
  deriving DecidableEq

/-- `Packet`: a header followed by a payload. -/
structure Packet where
  header : PacketHeader
  payload : List Nat
  deriving DecidableEq

/-- `HeaderSize = 14`. -/
def HeaderSize : Nat := 14

/-- `NewPacket`: builds a packet; `uint16(len(payload))` truncates mod 2^16. -/
def NewPacket (packetType : Nat) (sessionID : Nat) (payload : List Nat) : Packet :=
  { header :=
      { magic0 := 0x48, magic1 := 0x56, version := 1, ptype := packetType,
        sessionID := sessionID, length := payload.length % 65536 },
    payload := payload }

/-- `Packet.Marshal`: 14 header bytes followed by the payload. -/
def Packet.Marshal (p : Packet) : List Nat :=
  p.header.magic0 % 256 :: p.header.magic1 % 256 :: p.header.version % 256 ::
  p.header.ptype % 256 :: (be64 p.header.sessionID ++ be16 p.header.length ++ p.payload)

/-- `UnmarshalPacket`: validates minimum length, magic, version and the
length field, then splits off the payload; `none` models the error returns. -/
def UnmarshalPacket (data : List Nat) : Option Packet :=
  if data.length < HeaderSize then none
  else if data.getD 0 0 ≠ 0x48 ∨ data.getD 1 0 ≠ 0x56 then none
  else if data.getD 2 0 ≠ 1 then none
  else if readU16at12 data ≠ data.length - HeaderSize then none
  else some
    { header :=
        { magic0 := data.getD 0 0, magic1 := data.getD 1 0,
          version := data.getD 2 0, ptype := data.getD 3 0,
          sessionID := readU64at4 data, length := readU16at12 data },
      payload := data.drop HeaderSize }

/-- Well-formedness of a packet: valid magic, version 1, length field equal
to the payload length, and each field within its Go machine-integer range
(`uint8` type byte, `uint64` session id, `uint16` length, byte payload). -/
def Packet.WF (p : Packet) : Prop :=
  p.header.magic0 = 0x48 ∧ p.header.magic1 = 0x56 ∧ p.header.version = 1 ∧
  p.header.ptype < 256 ∧ p.header.sessionID < 18446744073709551616 ∧
  p.header.length = p.payload.length ∧ p.payload.length < 65536

instance (p : Packet) : Decidable p.WF := by
  unfold Packet.WF; infer_instance

/-! ### Framing lemmas -/

lemma cons_of_le_length (b : List Nat) (n : Nat) (h : n + 1 ≤ b.length) :
    ∃ x t, b = x :: t ∧ n ≤ t.length := by
  cases b with
  | nil => simp at h
  | cons x t => exact ⟨x, t, rfl, by simpa using h⟩

lemma unmarshal_cons (d0 d1 d2 d3 d4 d5 d6 d7 d8 d9 d10 d11 d12 d13 : Nat) (rest : List Nat) :
    UnmarshalPacket (d0 :: d1 :: d2 :: d3 :: d4 :: d5 :: d6 :: d7 :: d8 :: d9 :: d10 :: d11 :: d12 :: d13 :: rest) =
      (if d0 ≠ 0x48 ∨ d1 ≠ 0x56 then none
       else if d2 ≠ 1 then none
       else if d12 * 2 ^ 8 + d13 ≠ rest.length then none
       else some
        { header :=
            { magic0 := d0, magic1 := d1, version := d2, ptype := d3,
              sessionID := d4 * 2 ^ 56 + d5 * 2 ^ 48 + d6 * 2 ^ 40 + d7 * 2 ^ 32 +
                d8 * 2 ^ 24 + d9 * 2 ^ 16 + d10 * 2 ^ 8 + d11,
              length := d12 * 2 ^ 8 + d13 },
          payload := rest }) := by
  have hlen : (d0 :: d1 :: d2 :: d3 :: d4 :: d5 :: d6 :: d7 :: d8 :: d9 :: d10 :: d11 :: d12 :: d13 :: rest).length = rest.length + 14 := by
    simp
  simp only [UnmarshalPacket, readU64at4, readU16at12, HeaderSize, hlen]
  norm_num [List.getD]

lemma unmarshal_marshal_of_wf (p : Packet) (h : p.WF) : UnmarshalPacket p.Marshal = some p := by
  obtain ⟨hm0, hm1, hv, ht, hs, hl, hl16⟩ := h
  obtain ⟨⟨m0, m1, v, t, sid, len⟩, payload⟩ := p
  simp only at hm0 hm1 hv ht hs hl hl16
  subst hm0 hm1 hv hl
  simp only [Packet.Marshal, be64, be16, List.cons_append, List.nil_append]
  rw [unmarshal_cons]
  rw [if_neg (by norm_num), if_neg (by norm_num), if_neg (by omega)]
  simp only [Option.some.injEq, Packet.mk.injEq, PacketHeader.mk.injEq]
  norm_num
  omega

lemma marshal_unmarshal_inv (b : List Nat) (hb : isBytes b) (p : Packet)
    (hp : UnmarshalPacket b = some p) : p.Marshal = b := by
  rcases Nat.lt_or_ge b.length 14 with h | h
  · exfalso
    simp [UnmarshalPacket, HeaderSize] at hp
    omega
  · obtain ⟨d0, b1, rfl, h1⟩ := cons_of_le_length b 13 h
    obtain ⟨d1, b2, rfl, h2⟩ := cons_of_le_length b1 12 h1
    obtain ⟨d2, b3, rfl, h3⟩ := cons_of_le_length b2 11 h2
    obtain ⟨d3, b4, rfl, h4⟩ := cons_of_le_length b3 10 h3
    obtain ⟨d4, b5, rfl, h5⟩ := cons_of_le_length b4 9 h4
    obtain ⟨d5, b6, rfl, h6⟩ := cons_of_le_length b5 8 h5
    obtain ⟨d6, b7, rfl, h7⟩ := cons_of_le_length b6 7 h6
    obtain ⟨d7, b8, rfl, h8⟩ := cons_of_le_length b7 6 h7
    obtain ⟨d8, b9, rfl, h9⟩ := cons_of_le_length b8 5 h8
    obtain ⟨d9, b10, rfl, h10⟩ := cons_of_le_length b9 4 h9
    obtain ⟨d10, b11, rfl, h11⟩ := cons_of_le_length b10 3 h10
    obtain ⟨d11, b12, rfl, h12⟩ := cons_of_le_length b11 2 h11
    obtain ⟨d12, b13, rfl, h13⟩ := cons_of_le_length b12 1 h12
    obtain ⟨d13, rest, rfl, h14⟩ := cons_of_le_length b13 0 h13
    rw [unmarshal_cons] at hp
    split_ifs at hp with c1 c2 c3
    push_neg at c1 c2 c3
    obtain ⟨c72, c86⟩ := c1
    simp only [Option.some.injEq] at hp
    subst hp
    have e0 : d0 < 256 := hb _ (by simp)
    have e1 : d1 < 256 := hb _ (by simp)
    have e2 : d2 < 256 := hb _ (by simp)
    have e3 : d3 < 256 := hb _ (by simp)
    have e4 : d4 < 256 := hb _ (by simp)
    have e5 : d5 < 256 := hb _ (by simp)
    have e6 : d6 < 256 := hb _ (by simp)
    have e7 : d7 < 256 := hb _ (by simp)
    have e8 : d8 < 256 := hb _ (by simp)
    have e9 : d9 < 256 := hb _ (by simp)
    have e10 : d10 < 256 := hb _ (by simp)
    have e11 : d11 < 256 := hb _ (by simp)
    have e12 : d12 < 256 := hb _ (by simp)
    have e13 : d13 < 256 := hb _ (by simp)
    simp only [Packet.Marshal, be64, be16, List.cons_append, List.nil_append, List.cons.injEq]
    refine ⟨by omega, by omega, by omega, by omega, by omega, by omega, by omega, by omega,
      by omega, by omega, by omega, by omega, by omega, by omega, trivial⟩

lemma unmarshal_none_iff (b : List Nat) :
    UnmarshalPacket b = none ↔
      (b.length < 14 ∨ b.getD 0 0 ≠ 0x48 ∨ b.getD 1 0 ≠ 0x56 ∨ b.getD 2 0 ≠ 1 ∨
        b.getD 12 0 * 2 ^ 8 + b.getD 13 0 ≠ b.length - 14) := by
  rcases Nat.lt_or_ge b.length 14 with h | h
  · simp [UnmarshalPacket, HeaderSize, h]
  · obtain ⟨d0, b1, rfl, h1⟩ := cons_of_le_length b 13 h
    obtain ⟨d1, b2, rfl, h2⟩ := cons_of_le_length b1 12 h1
    obtain ⟨d2, b3, rfl, h3⟩ := cons_of_le_length b2 11 h2
    obtain ⟨d3, b4, rfl, h4⟩ := cons_of_le_length b3 10 h3
    obtain ⟨d4, b5, rfl, h5⟩ := cons_of_le_length b4 9 h4
    obtain ⟨d5, b6, rfl, h6⟩ := cons_of_le_length b5 8 h5
    obtain ⟨d6, b7, rfl, h7⟩ := cons_of_le_length b6 7 h6
    obtain ⟨d7, b8, rfl, h8⟩ := cons_of_le_length b7 6 h7
    obtain ⟨d8, b9, rfl, h9⟩ := cons_of_le_length b8 5 h8
    obtain ⟨d9, b10, rfl, h10⟩ := cons_of_le_length b9 4 h9
    obtain ⟨d10, b11, rfl, h11⟩ := cons_of_le_length b10 3 h10
    obtain ⟨d11, b12, rfl, h12⟩ := cons_of_le_length b11 2 h11
    obtain ⟨d12, b13, rfl, h13⟩ := cons_of_le_length b12 1 h12
    obtain ⟨d13, rest, rfl, h14⟩ := cons_of_le_length b13 0 h13
    rw [unmarshal_cons]
    have g0 : (d0 :: d1 :: d2 :: d3 :: d4 :: d5 :: d6 :: d7 :: d8 :: d9 :: d10 :: d11 :: d12 :: d13 :: rest).getD 0 0 = d0 := rfl
    have g1 : (d0 :: d1 :: d2 :: d3 :: d4 :: d5 :: d6 :: d7 :: d8 :: d9 :: d10 :: d11 :: d12 :: d13 :: rest).getD 1 0 = d1 := rfl
    have g2 : (d0 :: d1 :: d2 :: d3 :: d4 :: d5 :: d6 :: d7 :: d8 :: d9 :: d10 :: d11 :: d12 :: d13 :: rest).getD 2 0 = d2 := rfl
    have g12 : (d0 :: d1 :: d2 :: d3 :: d4 :: d5 :: d6 :: d7 :: d8 :: d9 :: d10 :: d11 :: d12 :: d13 :: rest).getD 12 0 = d12 := rfl
    have g13 : (d0 :: d1 :: d2 :: d3 :: d4 :: d5 :: d6 :: d7 :: d8 :: d9 :: d10 :: d11 :: d12 :: d13 :: rest).getD 13 0 = d13 := rfl
    rw [g0, g1, g2, g12, g13]
    have hlen : (d0 :: d1 :: d2 :: d3 :: d4 :: d5 :: d6 :: d7 :: d8 :: d9 :: d10 :: d11 :: d12 :: d13 :: rest).length = rest.length + 14 := by
      simp
    rw [hlen]
    split_ifs with c1 c2 c3
    · simp only [true_iff]
      omega
    · simp only [true_iff]
      omega
    · simp only [true_iff]
      omega
    · simp only [iff_false, false_iff]
      push_neg at c1 c2 c3
      simp only [not_or, not_lt, not_ne_iff]
      omega

/-! ### Claim theorems on framing -/

/-- Claim C2: for every well-formed packet `p` (valid magic, version 1,
`Header.Length` equal to the payload length, fields within their machine
ranges), `UnmarshalPacket (p.Marshal)` returns `p`; and for every byte
string `b`, either `UnmarshalPacket b` errs or marshalling the result
reproduces `b` exactly. -/
theorem C2_framing_roundtrip :
    (∀ p : Packet, p.WF → UnmarshalPacket p.Marshal = some p) ∧
    (∀ b : List Nat, isBytes b → ∀ p : Packet, UnmarshalPacket b = some p → p.Marshal = b) :=
  ⟨unmarshal_marshal_of_wf, marshal_unmarshal_inv⟩

/-- Witness for claim C2: the round trip evaluated on a concrete `Data`
packet, and marshal-after-parse on a concrete wire string. -/
theorem C2_framing_roundtrip_witness :
    UnmarshalPacket (Packet.Marshal (NewPacket 3 77 [1, 2, 3])) = some (NewPacket 3 77 [1, 2, 3]) ∧
    Packet.Marshal (NewPacket 4 5 []) = [72, 86, 1, 4, 0, 0, 0, 0, 0, 0, 0, 5, 0, 0] :=
  ⟨C2_framing_roundtrip.1 (NewPacket 3 77 [1, 2, 3]) (by decide),
   C2_framing_roundtrip.2 [72, 86, 1, 4, 0, 0, 0, 0, 0, 0, 0, 5, 0, 0] (by decide)
     (NewPacket 4 5 []) (by decide)⟩

/-- Claim C8: `UnmarshalPacket b` fails exactly when `b` is shorter than 14
bytes, or the magic bytes differ from `0x48 0x56`, or the version byte
differs from 1, or the big-endian length field differs from `len b - 14`.
The right-hand side does not mention byte 3, so the type byte is never a
cause of failure. -/
theorem C8_unmarshal_error_iff : ∀ b : List Nat,
    UnmarshalPacket b = none ↔
      (b.length < 14 ∨ b.getD 0 0 ≠ 0x48 ∨ b.getD 1 0 ≠ 0x56 ∨ b.getD 2 0 ≠ 1 ∨
        b.getD 12 0 * 2 ^ 8 + b.getD 13 0 ≠ b.length - 14) :=
  unmarshal_none_iff

/-- Claim C9: for a payload of 65536 bytes or more, `NewPacket` stores the
payload length mod 2^16 in the header while keeping the whole payload, so
the marshalled bytes carry a length field that disagrees with the actual
payload length and `UnmarshalPacket` rejects them. -/
theorem C9_oversize_payload (payload : List Nat) (hlen : 2 ^ 16 ≤ payload.length) (t sid : Nat) :
    (NewPacket t sid payload).header.length = payload.length % 2 ^ 16 ∧
    (NewPacket t sid payload).payload = payload ∧
    readU16at12 (Packet.Marshal (NewPacket t sid payload)) ≠
      (Packet.Marshal (NewPacket t sid payload)).length - HeaderSize ∧
    UnmarshalPacket (Packet.Marshal (NewPacket t sid payload)) = none := by
  have g : readU16at12 (Packet.Marshal (NewPacket t sid payload)) =
      payload.length % 2 ^ 16 / 2 ^ 8 % 256 * 2 ^ 8 + payload.length % 2 ^ 16 % 256 := rfl
  have L : (Packet.Marshal (NewPacket t sid payload)).length = 14 + payload.length := by
    simp [Packet.Marshal, NewPacket, be64, be16]
    omega
  refine ⟨rfl, rfl, ?_, ?_⟩
  · rw [g, L]
    simp only [HeaderSize]
    omega
  · rw [unmarshal_none_iff]
    right; right; right; right
    have g12 : (Packet.Marshal (NewPacket t sid payload)).getD 12 0 =
        payload.length % 2 ^ 16 / 2 ^ 8 % 256 := rfl
    have g13 : (Packet.Marshal (NewPacket t sid payload)).getD 13 0 =
        payload.length % 2 ^ 16 % 256 := rfl
    rw [g12, g13, L]
    omega

/-- Witness for claim C9: a 65536-byte payload evaluated through
`NewPacket`, `Marshal` and `UnmarshalPacket`. -/
theorem C9_oversize_payload_witness :
    2 ^ 16 ≤ (List.replicate 65536 (0 : Nat)).length ∧
    ((NewPacket 3 0 (List.replicate 65536 0)).header.length =
        (List.replicate 65536 (0 : Nat)).length % 2 ^ 16 ∧
      (NewPacket 3 0 (List.replicate 65536 0)).payload = List.replicate 65536 0 ∧
      readU16at12 (Packet.Marshal (NewPacket 3 0 (List.replicate 65536 0))) ≠
        (Packet.Marshal (NewPacket 3 0 (List.replicate 65536 0))).length - HeaderSize ∧
      UnmarshalPacket (Packet.Marshal (NewPacket 3 0 (List.replicate 65536 0))) = none) :=
  ⟨by norm_num, C9_oversize_payload (List.replicate 65536 0) (by norm_num) 3 0⟩

/-! ## Session crypto (src/pkg/crypto/crypto.go) -/

/-- `binary.LittleEndian.PutUint64`: eight little-endian bytes of `n`. -/
def le64 (n : Nat) : List Nat :=
  [n % 256, n / 256 % 256, n / 65536 % 256, n / 16777216 % 256,
   n / 4294967296 % 256, n / 1099511627776 % 256, n / 281474976710656 % 256, n / 72057594037927936 % 256]

/-- `crypto.Session`: the encryption state of a VPN session.  The two AEAD
cipher handles of the Go struct are deterministic functions of the keys and
are modelled as oracle parameters of `Encrypt`/`Decrypt`. -/
structure Session where
  SendKey : List Nat
  RecvKey : List Nat
  SendNonce : Nat
  RecvNonce : Nat
  deriving DecidableEq

/-- `Session.Encrypt`: builds the 24-byte nonce (bytes 0-7 little-endian
send counter, bytes 8-23 the fresh random bytes, passed in as `rand16`),
increments the `uint64` counter, and returns `nonce || seal nonce plaintext`
(`Seal` receives the nonce as destination buffer, so the output starts with
it). -/
def Session.Encrypt (aeadSeal : List Nat → List Nat → List Nat) (s : Session)
    (rand16 : List Nat) (plaintext : List Nat) : List Nat × Session :=
  ((le64 s.SendNonce ++ rand16) ++ aeadSeal (le64 s.SendNonce ++ rand16) plaintext,
   { s with SendNonce := (s.SendNonce + 1) % 18446744073709551616 })

/-- `Session.Decrypt`: rejects inputs shorter than 24 bytes, splits off the
24-byte nonce, calls the AEAD open oracle, and increments the receive
counter only on success. -/
def Session.Decrypt (aeadOpen : List Nat → List Nat → Option (List Nat)) (s : Session)
    (ciphertext : List Nat) : Option (List Nat) × Session :=
  if ciphertext.length < 24 then (none, s)
  else
    match aeadOpen (ciphertext.take 24) (ciphertext.drop 24) with
    | none => (none, s)
    | some plaintext => (some plaintext, { s with RecvNonce := (s.RecvNonce + 1) % 18446744073709551616 })

lemma le64_length (n : Nat) : (le64 n).length = 8 := by simp [le64]

lemma decrypt_error_state (aeadOpen : List Nat → List Nat → Option (List Nat)) (s : Session)
    (ciphertext : List Nat) (h : (Session.Decrypt aeadOpen s ciphertext).1 = none) :
    (Session.Decrypt aeadOpen s ciphertext).2 = s := by
  unfold Session.Decrypt at *
  split_ifs at h ⊢ with h24
  · rfl
  · rcases ho : aeadOpen (ciphertext.take 24) (ciphertext.drop 24) with _ | pt
    · simp [ho]
    · simp [ho] at h ⊢

/-- Claim C7: `Encrypt` returns `nonce || aead_ciphertext_with_tag` where
the 24-byte nonce has bytes 0-7 equal to the little-endian encoding of the
pre-call `SendNonce` and bytes 8-23 equal to the 16 random bytes, and one
`Encrypt` call increments `SendNonce` by exactly 1 (the counter is a
`uint64`, so the pre-call value is below its wrap-around point), leaving
the keys and the receive counter untouched. -/
theorem C7_encrypt_nonce_layout (aeadSeal : List Nat → List Nat → List Nat) (s : Session)
    (rand16 plaintext : List Nat) (hr : rand16.length = 16)
    (hn : s.SendNonce + 1 < 2 ^ 64) :
    (Session.Encrypt aeadSeal s rand16 plaintext).1 =
      (le64 s.SendNonce ++ rand16) ++ aeadSeal (le64 s.SendNonce ++ rand16) plaintext ∧
    ((Session.Encrypt aeadSeal s rand16 plaintext).1.take 24).take 8 = le64 s.SendNonce ∧
    ((Session.Encrypt aeadSeal s rand16 plaintext).1.take 24).drop 8 = rand16 ∧
    (Session.Encrypt aeadSeal s rand16 plaintext).1.drop 24 =
      aeadSeal (le64 s.SendNonce ++ rand16) plaintext ∧
    (Session.Encrypt aeadSeal s rand16 plaintext).2.SendNonce = s.SendNonce + 1 ∧
    (Session.Encrypt aeadSeal s rand16 plaintext).2.RecvNonce = s.RecvNonce ∧
    (Session.Encrypt aeadSeal s rand16 plaintext).2.SendKey = s.SendKey ∧
    (Session.Encrypt aeadSeal s rand16 plaintext).2.RecvKey = s.RecvKey := by
  have h8 : (le64 s.SendNonce).length = 8 := le64_length _
  have hlen : (le64 s.SendNonce ++ rand16).length = 24 := by
    simp [le64_length, hr]
  have htake : ((le64 s.SendNonce ++ rand16) ++ aeadSeal (le64 s.SendNonce ++ rand16) plaintext).take 24 =
      le64 s.SendNonce ++ rand16 := by
    rw [List.take_append_of_le_length (le_of_eq hlen.symm), List.take_of_length_le (le_of_eq hlen)]
  simp only [Session.Encrypt]
  refine ⟨trivial, ?_, ?_, ?_, ?_, trivial, trivial, trivial⟩
  · rw [htake, List.take_append_of_le_length (by rw [h8]),
      List.take_of_length_le (le_of_eq h8)]
  · rw [htake, ← h8, List.drop_left]
  · rw [← hlen, List.drop_left]
  · exact Nat.mod_eq_of_lt hn

/-- Witness for claim C7: `Encrypt` evaluated with a constant seal oracle
on a concrete session state. -/
theorem C7_encrypt_nonce_layout_witness :
    (List.replicate 16 (3 : Nat)).length = 16 ∧ 5 + 1 < 2 ^ 64 ∧
    ((Session.Encrypt (fun _ _ => [7]) ⟨[1], [2], 5, 9⟩ (List.replicate 16 3) [10]).1 =
        (le64 5 ++ List.replicate 16 3) ++ [7] ∧
      ((Session.Encrypt (fun _ _ => [7]) ⟨[1], [2], 5, 9⟩ (List.replicate 16 3) [10]).1.take 24).take 8 = le64 5 ∧
      ((Session.Encrypt (fun _ _ => [7]) ⟨[1], [2], 5, 9⟩ (List.replicate 16 3) [10]).1.take 24).drop 8 = List.replicate 16 3 ∧
      (Session.Encrypt (fun _ _ => [7]) ⟨[1], [2], 5, 9⟩ (List.replicate 16 3) [10]).1.drop 24 = [7] ∧
      (Session.Encrypt (fun _ _ => [7]) ⟨[1], [2], 5, 9⟩ (List.replicate 16 3) [10]).2.SendNonce = 5 + 1 ∧
      (Session.Encrypt (fun _ _ => [7]) ⟨[1], [2], 5, 9⟩ (List.replicate 16 3) [10]).2.RecvNonce = 9 ∧
      (Session.Encrypt (fun _ _ => [7]) ⟨[1], [2], 5, 9⟩ (List.replicate 16 3) [10]).2.SendKey = [1] ∧
      (Session.Encrypt (fun _ _ => [7]) ⟨[1], [2], 5, 9⟩ (List.replicate 16 3) [10]).2.RecvKey = [2]) :=
  ⟨by simp, by norm_num,
    C7_encrypt_nonce_layout (fun _ _ => [7]) ⟨[1], [2], 5, 9⟩ (List.replicate 16 3) [10]
      (by simp) (by norm_num)⟩

/-- Claim C10: `Decrypt` rejects any input shorter than 24 bytes without
touching the state; the nonce/body split is always in bounds; and on every
error path `RecvNonce` (indeed the whole session state) is unchanged. -/
theorem C10_decrypt_bounds (aeadOpen : List Nat → List Nat → Option (List Nat)) (s : Session)
    (ciphertext : List Nat) :
    (ciphertext.length < 24 → Session.Decrypt aeadOpen s ciphertext = (none, s)) ∧
    (24 ≤ ciphertext.length →
      (ciphertext.take 24).length = 24 ∧ ciphertext.take 24 ++ ciphertext.drop 24 = ciphertext) ∧
    ((Session.Decrypt aeadOpen s ciphertext).1 = none →
      (Session.Decrypt aeadOpen s ciphertext).2 = s) := by
  refine ⟨?_, ?_, decrypt_error_state aeadOpen s ciphertext⟩
  · intro h
    simp [Session.Decrypt, h]
  · intro h
    constructor
    · rw [List.length_take]
      omega
    · exact List.take_append_drop 24 ciphertext

/-- Witness for claim C10: `Decrypt` evaluated on a 1-byte input (too
short), on a 24-byte input (split in bounds), and on a failing open. -/
theorem C10_decrypt_bounds_witness :
    (([1] : List Nat).length < 24 ∧
      Session.Decrypt (fun _ _ => none) ⟨[], [], 0, 0⟩ [1] = (none, (⟨[], [], 0, 0⟩ : Session))) ∧
    (24 ≤ (List.replicate 24 (0 : Nat)).length ∧
      ((List.replicate 24 (0 : Nat)).take 24).length = 24 ∧
      (List.replicate 24 (0 : Nat)).take 24 ++ (List.replicate 24 (0 : Nat)).drop 24 =
        List.replicate 24 (0 : Nat)) ∧
    ((Session.Decrypt (fun _ _ => none) ⟨[], [], 0, 0⟩ (List.replicate 24 0)).2 =
      (⟨[], [], 0, 0⟩ : Session)) :=
  ⟨⟨by norm_num, (C10_decrypt_bounds (fun _ _ => none) ⟨[], [], 0, 0⟩ [1]).1 (by norm_num)⟩,
   ⟨by simp, (C10_decrypt_bounds (fun _ _ => none) ⟨[], [], 0, 0⟩ (List.replicate 24 0)).2.1 (by simp)⟩,
   (C10_decrypt_bounds (fun _ _ => none) ⟨[], [], 0, 0⟩ (List.replicate 24 0)).2.2 (by decide)⟩

/-! ## Server data loop (src/pkg/server/server.go, handleConnection) -/

/-- Per-session state touched by the server data loop
(`handleConnection`): the crypto session, the `LastSeen` timestamp
(abstract clock value) and the plaintexts written to the TUN device. -/
structure LoopState where
  sess : Session
  lastSeen : Nat
  tunWritten : List (List Nat)
  deriving DecidableEq

/-- One iteration of the server data loop on an already-read message `raw`
at time `now`: parse errors continue the loop; a parsed packet refreshes
`LastSeen`; `Data` (3) is decrypted and written to the TUN on success and
dropped on failure; `KeepAlive` (4) echoes a keep-alive frame;
`Disconnect` (5) exits the loop (second component `false`); other types
fall through.  The third component lists frames written back to the
connection. -/
def handleLoopIteration (aeadOpen : List Nat → List Nat → Option (List Nat)) (sid : Nat)
    (st : LoopState) (raw : List Nat) (now : Nat) : LoopState × Bool × List (List Nat) :=
  match UnmarshalPacket raw with
  | none => (st, true, [])
  | some packet =>
    let st1 : LoopState := { st with lastSeen := now }
    if packet.header.ptype = 3 then
      match Session.Decrypt aeadOpen st1.sess packet.payload with
      | (none, s1) => ({ st1 with sess := s1 }, true, [])
      | (some pt, s1) => ({ st1 with sess := s1, tunWritten := st1.tunWritten ++ [pt] }, true, [])
    else if packet.header.ptype = 4 then
      (st1, true, [Packet.Marshal (NewPacket 4 sid [])])
    else if packet.header.ptype = 5 then
      (st1, false, [])
    else
      (st1, true, [])

/-- Counterexample to claim C6 as stated: a parsed `Data` packet whose AEAD
open fails still updates `LastSeen` (the loop sets it before dispatching on
the packet type), so "last_seen is unchanged" is false. -/
theorem C6_lastseen_counterexample :
    UnmarshalPacket (Packet.Marshal (NewPacket 3 0 (List.replicate 24 0))) =
      some (NewPacket 3 0 (List.replicate 24 0)) ∧
    (NewPacket 3 0 (List.replicate 24 0)).header.ptype = 3 ∧
    (Session.Decrypt (fun _ _ => none) (⟨[], [], 0, 0⟩ : Session)
      (NewPacket 3 0 (List.replicate 24 0)).payload).1 = none ∧
    (handleLoopIteration (fun _ _ => none) 0 ⟨⟨[], [], 0, 0⟩, 0, []⟩
        (Packet.Marshal (NewPacket 3 0 (List.replicate 24 0))) 1).1.lastSeen ≠
      (⟨⟨[], [], 0, 0⟩, 0, []⟩ : LoopState).lastSeen := by
  decide

/-- Claim C6 (amended): on a received `Data` packet whose AEAD open fails,
the packet is dropped silently (nothing written to the TUN or the
connection), the loop continues, and no counter advances — but `LastSeen`
is refreshed to the receive time, since the loop updates it for every
successfully parsed packet before dispatching on the type. -/
theorem C6_decrypt_failure_drops (aeadOpen : List Nat → List Nat → Option (List Nat)) (sid : Nat)
    (st : LoopState) (raw : List Nat) (now : Nat) (p : Packet)
    (hparse : UnmarshalPacket raw = some p) (hdata : p.header.ptype = 3)
    (hfail : (Session.Decrypt aeadOpen st.sess p.payload).1 = none) :
    handleLoopIteration aeadOpen sid st raw now = ({ st with lastSeen := now }, true, []) := by
  have hsnd := decrypt_error_state aeadOpen st.sess p.payload hfail
  have hd : Session.Decrypt aeadOpen st.sess p.payload = (none, st.sess) := by
    rw [Prod.ext_iff]
    exact ⟨hfail, hsnd⟩
  unfold handleLoopIteration
  rw [hparse]
  simp only [hdata, if_true]
  rw [hd]

/-- Witness for claim C6 (amended): the loop evaluated on a concrete
`Data` packet whose AEAD open fails. -/
theorem C6_decrypt_failure_drops_witness :
    UnmarshalPacket (Packet.Marshal (NewPacket 3 0 (List.replicate 24 1))) =
      some (NewPacket 3 0 (List.replicate 24 1)) ∧
    (NewPacket 3 0 (List.replicate 24 1)).header.ptype = 3 ∧
    (Session.Decrypt (fun _ _ => none) (⟨[], [], 0, 0⟩ : Session)
      (NewPacket 3 0 (List.replicate 24 1)).payload).1 = none ∧
    handleLoopIteration (fun _ _ => none) 0 ⟨⟨[], [], 0, 0⟩, 0, []⟩
        (Packet.Marshal (NewPacket 3 0 (List.replicate 24 1))) 1 =
      ({ (⟨⟨[], [], 0, 0⟩, 0, []⟩ : LoopState) with lastSeen := 1 }, true, []) :=
  ⟨by decide, by decide, by decide,
    C6_decrypt_failure_drops (fun _ _ => none) 0 ⟨⟨[], [], 0, 0⟩, 0, []⟩
      (Packet.Marshal (NewPacket 3 0 (List.replicate 24 1))) 1
      (NewPacket 3 0 (List.replicate 24 1)) (by decide) (by decide) (by decide)⟩

/-! ## Obfuscated transport (src/pkg/transport/transport.go) -/

/-- `obfuscate`: XORs `data` with the rolling `key`, starting at cursor
`keyPos` and advancing it modulo `len key`; returns the transformed bytes
and the final cursor. -/
def obfuscate (data key : List Nat) (keyPos : Nat) : List Nat × Nat :=
  match data with
  | [] => ([], keyPos)
  | d :: rest =>
    let d1 := Nat.xor d (key.getD keyPos 0)
    let r := obfuscate rest key ((keyPos + 1) % key.length)
    (d1 :: r.1, r.2)

/-- `binary.BigEndian.PutUint32`: four big-endian bytes of `n`. -/
def be32 (n : Nat) : List Nat :=
  [n / 16777216 % 256, n / 65536 % 256, n / 256 % 256, n % 256]

/-- `binary.BigEndian.Uint32` of the first four bytes. -/
def readU32 (b : List Nat) : Nat :=
  b.getD 0 0 * 16777216 + b.getD 1 0 * 65536 + b.getD 2 0 * 256 + b.getD 3 0

/-- `ObfuscatedConnection.Write`: prepends the 4-byte big-endian length,
XORs the whole frame from the current cursor, commits the advanced cursor,
and puts the result on the wire. -/
def ObfWrite (key : List Nat) (keyPos : Nat) (b : List Nat) : List Nat × Nat :=
  obfuscate (be32 (b.length % 4294967296) ++ b) key keyPos

/-- `ObfuscatedConnection.Read`: de-XORs the 4-byte length prefix with a
temporary cursor (leaving the connection cursor untouched), rejects lengths
above 65535 or short wires, then de-XORs the body starting again from the
connection cursor `keyPos` and commits only that advance.  Returns the
delivered bytes, the new cursor and the unread wire remainder. -/
def ObfRead (key : List Nat) (keyPos : Nat) (wire : List Nat) :
    Option (List Nat × Nat × List Nat) :=
  if wire.length < 4 then none
  else
    let length := readU32 (obfuscate (wire.take 4) key keyPos).1
    if 65535 < length then none
    else if (wire.drop 4).length < length then none
    else
      let r := obfuscate ((wire.drop 4).take length) key keyPos
      some (r.1, r.2, (wire.drop 4).drop length)

/-- Claim C3 fails on the code: with key bytes `k i = i`, both cursors at 0
(a fresh connection pair) and a single write of `[0x00]`, the peer's read
parses the correct length 1 but de-XORs the body from the stale cursor
position, delivering `[0x04]` instead of `[0x00]`; the writer's cursor
advances to 5 while the reader's advances only to 1.  Only the length of
the message survives the round trip. -/
theorem C3_obfuscated_transport_bug :
    ObfWrite (List.range 32) 0 [0] = ([0, 1, 2, 2, 4], 5) ∧
    ObfRead (List.range 32) 0 [0, 1, 2, 2, 4] = some ([4], 1, []) ∧
    ([4] : List Nat) ≠ [0] ∧
    ([4] : List Nat).length = ([0] : List Nat).length := by
  decide

/-! ## IP pool (src/pkg/server/server.go) -/

/-- `IPPool`: the set of allocated host numbers and the monotonic
next-host cursor.  The Go `used` map is keyed by the dotted IP string;
over the fixed `10.8.0.0/24` base the host number is in bijection with
that string, so the map is a finite set of host numbers, modelled as a
`Nat` bit set (bit `h` set iff host `h` is allocated). -/
structure IPPool where
  used : Nat
  nextHost : Nat
  deriving DecidableEq

/-- The scan loop inside `IPPool.Allocate`: starting at offset `i` with the
given iteration budget (`maxHosts - 2` in the caller, matching
`for i := 0; i < maxHosts-2; i++`), computes
`hostNum = (nextHost + i) % (maxHosts - 1)` clamped up to 2 and returns the
first host not in `used`. -/
def IPPool.findHost (maxHosts used nextHost : Nat) : Nat → Nat → Option Nat
  | _, 0 => none
  | i, fuel + 1 =>
    let h0 := (nextHost + i) % (maxHosts - 1)
    let hostNum := if h0 < 2 then 2 else h0
    if used.testBit hostNum then IPPool.findHost maxHosts used nextHost (i + 1) fuel
    else some hostNum

/-- `IPPool.Allocate`: scans for a free host number; on success marks it
used and moves the cursor past it, on failure (`IP pool exhausted`) leaves
the pool unchanged. -/
def IPPool.Allocate (maxHosts : Nat) (p : IPPool) : Option (Nat × IPPool) :=
  match IPPool.findHost maxHosts p.used p.nextHost 0 (maxHosts - 2) with
  | none => none
  | some h => some (h, ⟨p.used ||| (1 <<< h), h + 1⟩)

/-- `IPPool.Release`: removes the address from the used set (`delete` on
the Go map: a no-op when absent); the cursor is not rewound. -/
def IPPool.Release (p : IPPool) (host : Nat) : IPPool :=
  { p with used := if p.used.testBit host then p.used ^^^ (1 <<< host) else p.used }

/-- `NewIPPool`: empty used set, cursor starting at host 2. -/
def emptyPool : IPPool := ⟨0, 2⟩

/-- Runs `Allocate` (for the `/24` pool, `maxHosts = 256`) up to `n` times,
collecting the allocated host numbers, stopping at the first failure. -/
def allocN : Nat → IPPool → List Nat × IPPool
  | 0, p => ([], p)
  | n + 1, p =>
    match IPPool.Allocate 256 p with
    | none => ([], p)
    | some (h, p1) =>
      let r := allocN n p1
      (h :: r.1, r.2)

lemma allocN_none (n : Nat) (p : IPPool) (h : IPPool.Allocate 256 p = none) :
    (allocN n p).1 = [] := by
  cases n <;> simp [allocN, h]

set_option maxRecDepth 100000 in
/-- Claim C4 on the `/24` pool: from the empty pool exactly 253 `Allocate`
calls succeed, yielding hosts 2..254, and the next call fails — that part
holds.  But after releasing host 254 from the exhausted pool, `Allocate`
still fails although 254 is free and only 252 addresses are in use (the
wrap of the scan index modulo `maxHosts - 1 = 255` never revisits
`nextHost - 1 = 254` when the cursor sits at 255), and since a failed
`Allocate` leaves the pool unchanged, no later run of `Allocate` calls ever
returns the released address. -/
theorem C4_pool_release_bug :
    ((allocN 253 emptyPool).1 = List.range' 2 253 ∧
      IPPool.Allocate 256 (allocN 253 emptyPool).2 = none ∧
      (IPPool.Release (allocN 253 emptyPool).2 254).used.testBit 254 = false ∧
      (IPPool.Release (allocN 253 emptyPool).2 254).used =
        28948022309329048855892746252171976963317496166410141009864396001978282409980 ∧
      IPPool.Allocate 256 (IPPool.Release (allocN 253 emptyPool).2 254) = none) ∧
    ∀ n, (allocN n (IPPool.Release (allocN 253 emptyPool).2 254)).1 = [] := by
  have h5 : (allocN 253 emptyPool).1 = List.range' 2 253 ∧
      IPPool.Allocate 256 (allocN 253 emptyPool).2 = none ∧
      (IPPool.Release (allocN 253 emptyPool).2 254).used.testBit 254 = false ∧
      (IPPool.Release (allocN 253 emptyPool).2 254).used =
        28948022309329048855892746252171976963317496166410141009864396001978282409980 ∧
      IPPool.Allocate 256 (IPPool.Release (allocN 253 emptyPool).2 254) = none := by
    decide
  exact ⟨h5, fun n => allocN_none n _ h5.2.2.2.2⟩

/-! ## Key derivation (src/pkg/crypto/crypto.go, DeriveSessionKeys)

`DeriveSessionKeys` calls HKDF-SHA256 from `golang.org/x/crypto`; SHA-256,
HMAC and HKDF are embedded executably below (32-bit words as `Nat` with
explicit `% 2 ^ 32`) so that key material can be computed inside proofs. -/

/-- Right rotation of a 32-bit word. -/
def rotr32 (x n : Nat) : Nat := ((x >>> n) ||| (x <<< (32 - n))) % 4294967296

/-- 32-bit modular addition. -/
def add32 (a b : Nat) : Nat := (a + b) % 4294967296

/-- SHA-256 Σ0. -/
def bigS0 (x : Nat) : Nat := rotr32 x 2 ^^^ rotr32 x 13 ^^^ rotr32 x 22

/-- SHA-256 Σ1. -/
def bigS1 (x : Nat) : Nat := rotr32 x 6 ^^^ rotr32 x 11 ^^^ rotr32 x 25

/-- SHA-256 σ0. -/
def smallS0 (x : Nat) : Nat := rotr32 x 7 ^^^ rotr32 x 18 ^^^ (x >>> 3)

/-- SHA-256 σ1. -/
def smallS1 (x : Nat) : Nat := rotr32 x 17 ^^^ rotr32 x 19 ^^^ (x >>> 10)

/-- SHA-256 choice function. -/
def chF (x y z : Nat) : Nat := (x &&& y) ^^^ ((x ^^^ 4294967295) &&& z)

/-- SHA-256 majority function. -/
def majF (x y z : Nat) : Nat := (x &&& y) ^^^ (x &&& z) ^^^ (y &&& z)

/-- SHA-256 initial hash state. -/
def hInit : List Nat :=
  [1779033703, 3144134277, 1013904242, 2773480762, 1359893119,
   2600822924, 528734635, 1541459225]

/-- SHA-256 round constants. -/
def K64 : List Nat :=
  [1116352408, 1899447441, 3049323471, 3921009573, 961987163,
   1508970993, 2453635748, 2870763221, 3624381080, 310598401,
   607225278, 1426881987, 1925078388, 2162078206, 2614888103,
   3248222580, 3835390401, 4022224774, 264347078, 604807628,
   770255983, 1249150122, 1555081692, 1996064986, 2554220882,
   2821834349, 2952996808, 3210313671, 3336571891, 3584528711,
   113926993, 338241895, 666307205, 773529912, 1294757372,
   1396182291, 1695183700, 1986661051, 2177026350, 2456956037,
   2730485921, 2820302411, 3259730800, 3345764771, 3516065817,
   3600352804, 4094571909, 275423344, 430227734, 506948616,
   659060556, 883997877, 958139571, 1322822218, 1537002063,
   1747873779, 1955562222, 2024104815, 2227730452, 2361852424,
   2428436474, 2756734187, 3204031479, 3329325298]

/-- Big-endian bytes to 32-bit words. -/
def bytesToWords : List Nat → List Nat
  | b0 :: b1 :: b2 :: b3 :: rest => (((b0 * 256 + b1) * 256 + b2) * 256 + b3) :: bytesToWords rest
  | _ => []

/-- 32-bit words to big-endian bytes. -/
def wordsToBytes : List Nat → List Nat
  | [] => []
  | w :: rest => w / 16777216 % 256 :: w / 65536 % 256 :: w / 256 % 256 :: w % 256 :: wordsToBytes rest

/-- Message-schedule extension, built most-recent-word-first: the new word
`w[t] = σ1 w[t-2] + w[t-7] + σ0 w[t-15] + w[t-16]` reads positions 1, 6,
14 and 15 of the reversed accumulator. -/
def schedAux : Nat → List Nat → List Nat
  | 0, acc => acc
  | n + 1, acc =>
    schedAux n (add32 (add32 (smallS1 (acc.getD 1 0)) (acc.getD 6 0))
      (add32 (smallS0 (acc.getD 14 0)) (acc.getD 15 0)) :: acc)

/-- Extends the 16 block words to the 64 schedule words. -/
def schedule (ws : List Nat) : List Nat :=
  (schedAux 48 ws.reverse).reverse

/-- The 64 SHA-256 rounds, with the 8-word working state carried in
registers `a`..`h` over the list of (round constant, schedule word) pairs. -/
def rounds : List (Nat × Nat) → Nat → Nat → Nat → Nat → Nat → Nat → Nat → Nat → List Nat
  | [], a, b, c, d, e, f, g, h => [a, b, c, d, e, f, g, h]
  | kw :: rest, a, b, c, d, e, f, g, h =>
    let t1 := add32 h (add32 (bigS1 e) (add32 (chF e f g) (add32 kw.1 kw.2)))
    let t2 := add32 (bigS0 a) (majF a b c)
    rounds rest (add32 t1 t2) a b c (add32 d t1) e f g

/-- SHA-256 compression of one 64-byte block into the hash state. -/
def compress (h : List Nat) (block : List Nat) : List Nat :=
  match h with
  | [h0, h1, h2, h3, h4, h5, h6, h7] =>
    List.zipWith add32 h
      (rounds (List.zip K64 (schedule (bytesToWords block))) h0 h1 h2 h3 h4 h5 h6 h7)
  | other => other

/-- SHA-256 padding: `0x80`, zeros to 56 mod 64, 8-byte big-endian bit
length. -/
def sha256pad (msg : List Nat) : List Nat :=
  msg ++ 128 :: List.replicate ((119 - msg.length % 64) % 64) 0 ++ be64 (8 * msg.length)

/-- Splits a padded message into 64-byte blocks (fuelled recursion; the
caller passes enough fuel for the whole message). -/
def toBlocks : Nat → List Nat → List (List Nat)
  | 0, _ => []
  | _, [] => []
  | fuel + 1, l => l.take 64 :: toBlocks fuel (l.drop 64)

/-- SHA-256 (checked against FIPS 180-4 test vectors). -/
def sha256 (msg : List Nat) : List Nat :=
  wordsToBytes ((toBlocks (msg.length + 65) (sha256pad msg)).foldl compress hInit)

/-- HMAC-SHA256 (RFC 2104). -/
def hmacSHA256 (key msg : List Nat) : List Nat :=
  let k0 := if 64 < key.length then sha256 key else key
  let kp := k0 ++ List.replicate (64 - k0.length) 0
  sha256 ((kp.map (fun b => Nat.xor b 92)) ++ sha256 ((kp.map (fun b => Nat.xor b 54)) ++ msg))

/-- HKDF-SHA256 extract (`hkdf.New`): PRK = HMAC(salt, secret), with a
zero salt substituted when none is given. -/
def hkdfExtract (salt ikm : List Nat) : List Nat :=
  hmacSHA256 (if salt.isEmpty then List.replicate 32 0 else salt) ikm

/-- HKDF-SHA256 expand for the 64 bytes the code reads:
`T1 = HMAC(PRK, info || 0x01)`, `T2 = HMAC(PRK, T1 || info || 0x02)`
(checked against the RFC 5869 test vectors). -/
def hkdfExpand2 (prk info : List Nat) : List Nat :=
  hmacSHA256 prk (info ++ [1]) ++
  hmacSHA256 prk (hmacSHA256 prk (info ++ [1]) ++ info ++ [2])

/-- The ASCII bytes of the HKDF info label `hydravpn-session-keys`. -/
def sessionKeyInfo : List Nat :=
  [104, 121, 100, 114, 97, 118, 112, 110, 45, 115, 101, 115, 115, 105, 111, 110, 45, 107, 101, 121, 115]

/-- `crypto.DeriveSessionKeys`: reads two consecutive 32-byte keys `K1`,
`K2` from HKDF-SHA256(secret, salt, label); the initiator sends with `K1`
and receives with `K2`, the responder swaps them; both counters start at
zero. -/
def DeriveSessionKeys (sharedSecret : List Nat) (isInitiator : Bool) (salt : List Nat) : Session :=
  let okm := hkdfExpand2 (hkdfExtract salt sharedSecret) sessionKeyInfo
  if isInitiator then ⟨okm.take 32, (okm.drop 32).take 32, 0, 0⟩
  else ⟨(okm.drop 32).take 32, okm.take 32, 0, 0⟩

/-- The salt used by `performHandshake` on the client: `make([]byte, 32)`,
all zeros. -/
def clientHandshakeSalt : List Nat := List.replicate 32 0

/-- Claim C5: for every shared secret and every salt, deriving as initiator
and as responder from the same inputs gives matching directional keys:
initiator send = responder receive and initiator receive = responder send. -/
theorem C5_directional_key_schedule (sharedSecret salt : List Nat) :
    (DeriveSessionKeys sharedSecret true salt).SendKey =
      (DeriveSessionKeys sharedSecret false salt).RecvKey ∧
    (DeriveSessionKeys sharedSecret true salt).RecvKey =
      (DeriveSessionKeys sharedSecret false salt).SendKey :=
  ⟨rfl, rfl⟩

set_option maxRecDepth 400000 in
/-- Claim C1 fails on the code: the server derives with a random 32-byte
salt it never transmits while the client derives with the all-zero salt, so
on the same X25519 shared secret the client's send key differs from the
server's receive key (computed here through the embedded HKDF-SHA256 for
the shared secret `0x07^32` and server salt `0x01^32`); no Data packet
sealed by one side can be opened by the other. -/
theorem C1_handshake_salt_mismatch :
    clientHandshakeSalt ≠ List.replicate 32 1 ∧
    (DeriveSessionKeys (List.replicate 32 7) true clientHandshakeSalt).SendKey ≠
      (DeriveSessionKeys (List.replicate 32 7) false (List.replicate 32 1)).RecvKey := by
  constructor
  · decide
  · decide

end HydraVPN
